import Mathlib

/-!
Verification development for the national-exam practice tool.

Shallow embedding of the question store and filtering layer
(src/utils/question_manager.py), the scoring and report pipeline
(src/utils/report_generator.py) and the session lifecycle of the
Flask application (src/app.py).

Modelling conventions:
* Python dicts keyed by strings become association lists; the
  dict-comprehension construction (later entries overwrite earlier ones)
  is modelled by a left fold that keeps the last match.
* Python float arithmetic on the small nonnegative ratios appearing in
  the reports is modelled by exact rational arithmetic.
* The random number generator behind random.sample and the wall clock
  behind datetime.now are passed in explicitly (a choice function for
  the sampler, a string for the formatted timestamp), so every function
  is a pure function of its arguments.
-/

namespace NatExamTool

/-- A question record, as stored in questions.json and held by
QuestionManager (src/utils/question_manager.py).  The choices mapping of
option label to text is an association list with string keys, matching
the JSON object. -/
structure Question where
  id : String
  exam_number : Int
  question_number : Int
  category : String
  theme : String
  question_text : String
  choices : List (String × String)
  correct_answer : List Int
  explanation : String
deriving DecidableEq

/-- A submitted answer value: JSON null, a scalar, or a list of option
labels (multi-select). -/
inductive UserAnswer where
  | null : UserAnswer
  | scalar (v : Int) : UserAnswer
  | multi (vs : List Int) : UserAnswer
deriving DecidableEq

/-- An answer record as built by submit_answer in src/app.py:
question_id, answer, time_spent, submitted_at. -/
structure AnswerRecord where
  question_id : String
  answer : UserAnswer
  time_spent : ℚ
  submitted_at : String
deriving DecidableEq

/-- Session data as created by create_session in src/app.py. -/
structure SessionData where
  session_id : String
  mode : String
  exam_numbers : List Int
  categories : List String
  max_questions : Option Int
  questions : List Question
  answers : List AnswerRecord
  created_at : String
  current_question_index : Nat
deriving DecidableEq

/-! ### Question store and filtering (src/utils/question_manager.py) -/

/-- The exam-number index entry for one exam number: the questions with
that exam number in store order (QuestionManager.__init__ appends each
question to its exam bucket while scanning the store). -/
def examIndex (qs : List Question) (e : Int) : List Question :=
  qs.filter (fun q => q.exam_number == e)

/-- The category index entry for one category, in store order. -/
def catIndex (qs : List Question) (c : String) : List Question :=
  qs.filter (fun q => q.category == c)

/-- The id index: a dict built by inserting every question under its id
while scanning the store, so a later question with the same id
overwrites an earlier one.  Also models the question_dict built inside
the report generator from a session's question list. -/
def idLookup (qs : List Question) (i : String) : Option Question :=
  qs.foldl (fun acc q => if q.id == i then some q else acc) none

/-- The set of ids of questions whose exam number occurs in the given
list (the exam_question_ids set in filter_questions); a Python set is
modelled as the deduplicated insertion-order list. -/
def examIdSet (qs : List Question) (exam_numbers : List Int) : List String :=
  (exam_numbers.flatMap (fun e => (examIndex qs e).map (fun q => q.id))).dedup

/-- The set of ids of questions whose category occurs in the given list
(the cat_question_ids set in filter_questions). -/
def catIdSet (qs : List Question) (categories : List String) : List String :=
  (categories.flatMap (fun c => (catIndex qs c).map (fun q => q.id))).dedup

/-- filter_questions (src/utils/question_manager.py lines 52-102).
A missing (None) filter argument and an empty list are both falsy in
Python, so both are modelled by the empty list.  When both filters are
present the code intersects the two id sets and looks each common id up
in the id index; with a single filter it concatenates the index buckets
of the listed values; with no filter it returns the whole store. -/
def filter_questions (qs : List Question) (exam_numbers : List Int)
    (categories : List String) : List Question :=
  if exam_numbers ≠ [] ∧ categories ≠ [] then
    let common_ids := (examIdSet qs exam_numbers).filter
      (fun i => (catIdSet qs categories).elem i)
    common_ids.filterMap (fun i => idLookup qs i)
  else if exam_numbers ≠ [] then
    exam_numbers.flatMap (fun e => examIndex qs e)
  else if categories ≠ [] then
    categories.flatMap (fun c => catIndex qs c)
  else
    qs

/-- Sampling without replacement: the loop underlying random.sample.
The random source is abstracted as a choice function from the step
number to a natural number; at each step an index into the remaining
list is chosen and the chosen element is removed.  Every behaviour of
random.sample (for any seed) is one choice function. -/
def sampleGo {α : Type} (pick : Nat → Nat) : Nat → Nat → List α → List α
  | _, 0, _ => []
  | step, k + 1, l =>
    if h : l.length = 0 then []
    else
      let i := pick step % l.length
      have hi : i < l.length := Nat.mod_lt _ (Nat.pos_of_ne_zero h)
      l.get ⟨i, hi⟩ :: sampleGo pick (step + 1) k (l.eraseIdx i)

/-- random.sample(population, k), with the random source abstracted. -/
def randomSample {α : Type} (pick : Nat → Nat) (l : List α) (k : Nat) : List α :=
  sampleGo pick 0 k l

/-- filter_and_sample_questions (src/utils/question_manager.py lines
120-158): filter, then return the filtered list unchanged when
max_questions is None or nonpositive, or when the filtered list already
fits; otherwise draw a random sample of size max_questions. -/
def filter_and_sample_questions (qs : List Question) (exam_numbers : List Int)
    (categories : List String) (max_questions : Option Int)
    (pick : Nat → Nat) : List Question :=
  let filtered := filter_questions qs exam_numbers categories
  match max_questions with
  | none => filtered
  | some m =>
    if m ≤ 0 then filtered
    else if (filtered.length : Int) ≤ m then filtered
    else randomSample pick filtered m.toNat

/-! ### Scoring (src/utils/report_generator.py) -/

/-- Outcome of scoring one answer record. -/
inductive ScoreResult where
  | correct : ScoreResult
  | incorrect : ScoreResult
  | unanswered : ScoreResult
deriving DecidableEq

/-- The per-answer correctness decision, exactly as repeated in
generate_markdown_report, generate_json_report and generate_pdf_report:
a null answer is unanswered; a list answer is correct iff it equals the
correct-answer list as a set; any other answer is correct iff it is a
member of the correct-answer list. -/
def scoreAnswer (user_answer : UserAnswer) (correct_answer : List Int) : ScoreResult :=
  match user_answer with
  | .null => .unanswered
  | .multi vs =>
    if vs.toFinset = correct_answer.toFinset then .correct else .incorrect
  | .scalar v =>
    if v ∈ correct_answer then .correct else .incorrect

/-- Per-category counters, as held in the category_stats dict. -/
structure CatStat where
  total : Nat
  correct : Nat
  incorrect : Nat
  unanswered : Nat
deriving DecidableEq

/-- The zero counters a category starts from. -/
def CatStat.zero : CatStat := ⟨0, 0, 0, 0⟩

/-- category_stats initialisation: insert the category with zero
counters if it is not yet present (Python dicts keep insertion order,
so a fresh category is appended). -/
def catInit (cs : List (String × CatStat)) (cat : String) : List (String × CatStat) :=
  if cs.any (fun p => p.1 == cat) then cs else cs ++ [(cat, CatStat.zero)]

/-- Update the counters of one category in place. -/
def catUpdate (cs : List (String × CatStat)) (cat : String)
    (f : CatStat → CatStat) : List (String × CatStat) :=
  cs.map (fun p => if p.1 == cat then (p.1, f p.2) else p)

/-- Accumulator of the statistics loop: running correct, incorrect and
unanswered counts plus the category_stats table. -/
abbrev StatsAcc := Nat × Nat × Nat × List (String × CatStat)

/-- One iteration of the statistics loop shared by the report
generators: skip the answer when its question_id does not resolve in
the session's question dict, otherwise register the answer under its
question's category and bump the counter chosen by the correctness
decision. -/
def statsStep (questions : List Question) (acc : StatsAcc)
    (ad : AnswerRecord) : StatsAcc :=
  match idLookup questions ad.question_id with
  | none => acc
  | some q =>
    let c := acc.1
    let ic := acc.2.1
    let ua := acc.2.2.1
    let cs := catInit acc.2.2.2 q.category
    let cs := catUpdate cs q.category (fun st => { st with total := st.total + 1 })
    match scoreAnswer ad.answer q.correct_answer with
    | .unanswered =>
      (c, ic, ua + 1, catUpdate cs q.category
        (fun st => { st with unanswered := st.unanswered + 1 }))
    | .correct =>
      (c + 1, ic, ua, catUpdate cs q.category
        (fun st => { st with correct := st.correct + 1 }))
    | .incorrect =>
      (c, ic + 1, ua, catUpdate cs q.category
        (fun st => { st with incorrect := st.incorrect + 1 }))

/-- The statistics loop of generate_json_report (lines 239-278 of
src/utils/report_generator.py). -/
def jsonStatsLoop (questions : List Question) (answers : List AnswerRecord) : StatsAcc :=
  answers.foldl (statsStep questions) (0, 0, 0, [])

/-- The statistics loop of generate_markdown_report (lines 40-81 of
src/utils/report_generator.py); the source text of the loop is
identical to the one in generate_json_report. -/
def markdownStatsLoop (questions : List Question) (answers : List AnswerRecord) : StatsAcc :=
  answers.foldl (statsStep questions) (0, 0, 0, [])

/-- The JSON report dictionary returned by generate_json_report. -/
structure JsonReport where
  total : Nat
  correct : Nat
  incorrect : Nat
  unanswered : Nat
  correct_rate : ℚ
  category_stats : List (String × CatStat)
  answers : List AnswerRecord
  questions : List Question
deriving DecidableEq

/-- generate_json_report (src/utils/report_generator.py lines 224-289):
total is the length of the answers list; the other counters come from
the statistics loop; correct_rate is correct over total times 100 when
total is positive and 0 otherwise. -/
def generate_json_report (s : SessionData) : JsonReport :=
  let answers := s.answers
  let questions := s.questions
  let total := answers.length
  let acc := jsonStatsLoop questions answers
  { total := total
    correct := acc.1
    incorrect := acc.2.1
    unanswered := acc.2.2.1
    correct_rate := if total > 0 then (acc.1 : ℚ) / (total : ℚ) * 100 else 0
    category_stats := acc.2.2.2
    answers := answers
    questions := questions }

/-! ### Markdown report (src/utils/report_generator.py lines 21-222) -/

/-- Formats a nonnegative rational with one digit after the decimal
point, modelling the Python format {:.1f} applied to the report's
percentage and time values (the underlying binary float rounding is
modelled by exact rational rounding to nearest). -/
def fmtFix1 (x : ℚ) : String :=
  let n : Int := round (x * 10)
  toString (n / 10) ++ "." ++ toString ((n % 10).natAbs)

/-- The accuracy key used to sort the per-category statistics. -/
def catRate (st : CatStat) : ℚ :=
  if st.total > 0 then (st.correct : ℚ) / (st.total : ℚ) * 100 else 0

/-- The category table sorted by descending accuracy; Python's sorted
with reverse=True is stable, which the stable merge sort with the
reversed comparison reproduces. -/
def sortedCategoryStats (cs : List (String × CatStat)) : List (String × CatStat) :=
  cs.mergeSort (fun a b => decide (catRate b.2 ≤ catRate a.2))

/-- fmt_answer_text on a scalar label: show the label followed by the
choice text when the choices mapping has a non-blank entry for it. -/
def fmtScalarText (choices : List (String × String)) (a : Int) : String :=
  let ansStr := toString a
  let choiceText := (((choices.find? (fun p => p.1 == ansStr)).map (fun p => p.2)).getD "")
  if choiceText ≠ "" ∧ choiceText.trim ≠ "" then ansStr ++ ". " ++ choiceText
  else toString a

/-- The fmt_answer_text helper of the Markdown detail section. -/
def fmtAnswerText (choices : List (String × String)) : UserAnswer → String
  | .null => "未回答"
  | .multi vs =>
    if vs = [] then "正解データなし"
    else String.intercalate ", " (vs.map (fun a => fmtScalarText choices a))
  | .scalar a => fmtScalarText choices a

/-- The per-category block of the ジャンル別成績 section. -/
def markdownCategoryBlock (p : String × CatStat) : List String :=
  ["### " ++ p.1,
   "- 問題数: " ++ toString p.2.total ++ "問",
   "- 正答: " ++ toString p.2.correct ++ "問",
   "- 誤答: " ++ toString p.2.incorrect ++ "問",
   "- 未回答: " ++ toString p.2.unanswered ++ "問",
   "- **正答率: " ++ fmtFix1 (catRate p.2) ++ "%**",
   ""]

/-- The per-answer block of the 問題別詳細 section (lines 144-220 of
src/utils/report_generator.py); an answer whose question_id does not
resolve is skipped, but still consumes its running number i. -/
def markdownDetailBlock (questions : List Question) (i : Nat)
    (ad : AnswerRecord) : List String :=
  match idLookup questions ad.question_id with
  | none => []
  | some q =>
    let choices := q.choices
    let resultLine :=
      match scoreAnswer ad.answer q.correct_answer with
      | .unanswered => "**結果**: ⚪ 未回答"
      | .correct => "**結果**: ✅ 正解"
      | .incorrect => "**結果**: ❌ 不正解"
    let user_answer_text := fmtAnswerText choices ad.answer
    let correct_answer_text :=
      if q.correct_answer ≠ [] then fmtAnswerText choices (.multi q.correct_answer)
      else "正解データなし"
    let explanationLines :=
      if scoreAnswer ad.answer q.correct_answer = .incorrect then
        if q.explanation ≠ "" ∧ q.explanation.trim ≠ "" then
          ["**解説**: " ++ q.explanation]
        else
          let correct_choice_text := fmtAnswerText choices (.multi q.correct_answer)
          if correct_choice_text ≠ "" ∧ correct_choice_text ≠ "正解データなし" then
            ["**解説**: 正解は " ++ correct_choice_text ++ " です。"]
          else []
      else []
    ["### 問題 " ++ toString (i + 1) ++ " (第" ++ toString q.exam_number
        ++ "回 問" ++ toString q.question_number ++ ")",
     "**ジャンル**: " ++ q.category,
     "**テーマ**: " ++ q.theme,
     "",
     resultLine,
     "**あなたの回答**: " ++ user_answer_text,
     "**正解**: " ++ correct_answer_text] ++
    explanationLines ++
    ["**解答時間**: " ++ fmtFix1 ad.time_spent ++ "秒",
     ""]

/-- The statistics accumulator computed by generate_markdown_report
(lines 40-81 of src/utils/report_generator.py). -/
def markdownStats (s : SessionData) : StatsAcc :=
  markdownStatsLoop s.questions s.answers

/-- The total shown by the Markdown report: the length of the answers
list (line 41). -/
def markdownTotal (s : SessionData) : Nat :=
  s.answers.length

/-- The correct rate computed by generate_markdown_report (line 105). -/
def markdownCorrectRate (s : SessionData) : ℚ :=
  if markdownTotal s > 0 then
    ((markdownStats s).1 : ℚ) / (markdownTotal s : ℚ) * 100
  else 0

/-- The report_lines list built by generate_markdown_report.  The
formatted timestamp produced by datetime.now().strftime is passed in as
the string now; it is used exactly once, on the third line. -/
def markdownReportLines (now : String) (s : SessionData) : List String :=
  let answers := s.answers
  let questions := s.questions
  let acc := markdownStats s
  let total := markdownTotal s
  let correct := acc.1
  let incorrect := acc.2.1
  let unanswered := acc.2.2.1
  let category_stats := acc.2.2.2
  let correct_rate : ℚ := markdownCorrectRate s
  "# 国家試験対策 フィードバックレポート" ::
  "" ::
  ("**試験日時**: " ++ now) ::
  ("**モード**: " ++ (if s.mode == "test" then "テストモード" else "学習モード")) ::
  "" ::
  ((if s.exam_numbers ≠ [] then
      ["**試験回数**: 第" ++ String.intercalate ", 第" (s.exam_numbers.map toString) ++ "回"]
    else []) ++
   (if s.categories ≠ [] then
      ["**選択ジャンル**: " ++ String.intercalate ", " s.categories]
    else []) ++
   ["", "---", "", "## 総合成績", "",
    "- **総問題数**: " ++ toString total ++ "問",
    "- **正答数**: " ++ toString correct ++ "問",
    "- **誤答数**: " ++ toString incorrect ++ "問",
    "- **未回答**: " ++ toString unanswered ++ "問",
    "- **正答率**: " ++ fmtFix1 correct_rate ++ "%",
    "", "---", ""] ++
   (if category_stats ≠ [] then
      ["## ジャンル別成績", ""] ++
      (sortedCategoryStats category_stats).flatMap markdownCategoryBlock ++
      ["---", ""]
    else []) ++
   ["## 問題別詳細", ""] ++
   answers.enum.flatMap (fun p => markdownDetailBlock questions p.1 p.2))

/-- generate_markdown_report: the joined report lines. -/
def generate_markdown_report (now : String) (s : SessionData) : String :=
  String.intercalate "\n" (markdownReportLines now s)

/-! ### Flask application layer (src/app.py) -/

/-- The answer upsert of submit_answer (src/app.py lines 378-391): the
index of the first record with the submitted question_id is located;
if one exists the record is replaced in place, otherwise the new record
is appended. -/
def upsertAnswer (answers : List AnswerRecord) (newRec : AnswerRecord) : List AnswerRecord :=
  match answers.findIdx? (fun a => a.question_id == newRec.question_id) with
  | some i => answers.set i newRec
  | none => answers ++ [newRec]

/-- submit_answer (src/app.py lines 356-399) applied to a session: a
new answer record is built from the request fields and upserted into
the session's answers list.  No validation of question_id against the
question store or the session's question list is performed. -/
def submitAnswer (s : SessionData) (question_id : String) (answer : UserAnswer)
    (time_spent : ℚ) (submitted_at : String) : SessionData :=
  { s with
    answers := upsertAnswer s.answers
      (AnswerRecord.mk question_id answer time_spent submitted_at) }

/-- get_exam_numbers: the sorted list of exam numbers occurring in the
store (index keys are in first-occurrence order, then sorted). -/
def getExamNumbers (qs : List Question) : List Int :=
  ((qs.map (fun q => q.exam_number)).dedup).mergeSort (fun a b => decide (a ≤ b))

/-- create_session (src/app.py lines 290-343): resolve the question
list (sampling only when max_questions is given and positive) and build
the session record with an empty answers list. -/
def create_session (store : List Question) (sid : String) (mode : String)
    (exam_numbers : List Int) (categories : List String)
    (max_questions : Option Int) (pick : Nat → Nat) (created_at : String) : SessionData :=
  let questions :=
    match max_questions with
    | some m =>
      if m > 0 then filter_and_sample_questions store exam_numbers categories (some m) pick
      else filter_questions store exam_numbers categories
    | none => filter_questions store exam_numbers categories
  { session_id := sid
    mode := mode
    exam_numbers := if exam_numbers ≠ [] then exam_numbers else getExamNumbers store
    categories := categories
    max_questions := max_questions
    questions := questions
    answers := []
    created_at := created_at
    current_question_index := 0 }

/-- One session transition: some answer submission (arbitrary request
fields, as accepted by the submit_answer endpoint). -/
def SessionStep (a b : SessionData) : Prop :=
  ∃ qid ans t ts, b = submitAnswer a qid ans t ts

/-- A submission whose question_id names a question of the store. -/
def ValidSessionStep (store : List Question) (a b : SessionData) : Prop :=
  ∃ qid ans t ts, qid ∈ store.map (fun q => q.id) ∧ b = submitAnswer a qid ans t ts

/-- Session states reachable from session creation by any sequence of
answer submissions. -/
def ReachableSession (store : List Question) (s : SessionData) : Prop :=
  ∃ sid mode ens cats maxq pick created,
    Relation.ReflTransGen SessionStep
      (create_session store sid mode ens cats maxq pick created) s

/-- Session states reachable when every submission's question_id names
a question of the store. -/
def ReachableSessionValid (store : List Question) (s : SessionData) : Prop :=
  ∃ sid mode ens cats maxq pick created,
    Relation.ReflTransGen (ValidSessionStep store)
      (create_session store sid mode ens cats maxq pick created) s

/-- get_questions endpoint (src/app.py lines 255-275): the repeated
query parameters arrive as lists (an empty list is converted to None,
which filter_questions treats like an empty list); the filtered
questions are returned together with their count. -/
def get_questions (qs : List Question) (exam_numbers : List Int)
    (categories : List String) : List Question × Nat :=
  let questions := filter_questions qs exam_numbers categories
  (questions, questions.length)

/-! ### Concrete sample data used by witnesses and counterexamples -/

/-- Sample question: exam 1, number 1, category catA. -/
def tq1 : Question := ⟨"1-1", 1, 1, "catA", "", "", [], [1], ""⟩

/-- Sample question: exam 1, number 2, category catB. -/
def tq2 : Question := ⟨"1-2", 1, 2, "catB", "", "", [], [2], ""⟩

/-- Sample question: exam 2, number 1, category catA. -/
def tq3 : Question := ⟨"2-1", 2, 1, "catA", "", "", [], [1, 3], ""⟩

/-- A session holding one answer whose question_id resolves to no
question of the session. -/
def cexUnresolvedSession : SessionData :=
  ⟨"sid", "test", [], [], none, [], [⟨"X", .null, 0, ""⟩], "", 0⟩

/-- A fresh session with no questions and no answers. -/
def cexEmptySession : SessionData :=
  ⟨"sid", "test", [], [], none, [], [], "", 0⟩

/-! ### Statistics loop accounting -/

/-- One statistics step adds exactly one to the sum of the three
outcome counters when the answer's question resolves, and nothing
otherwise. -/
theorem statsStep_sum (questions : List Question) (acc : StatsAcc) (ad : AnswerRecord) :
    (statsStep questions acc ad).1 + (statsStep questions acc ad).2.1 +
      (statsStep questions acc ad).2.2.1 =
    acc.1 + acc.2.1 + acc.2.2.1 +
      (if (idLookup questions ad.question_id).isSome then 1 else 0) := by
  unfold statsStep
  cases h : idLookup questions ad.question_id with
  | none => simp [h]
  | some q =>
    cases hs : scoreAnswer ad.answer q.correct_answer <;> simp [h, hs] <;> omega

/-- Over the whole loop, the outcome counters sum to the number of
resolvable answers. -/
theorem statsLoop_sum (questions : List Question) (answers : List AnswerRecord)
    (acc : StatsAcc) :
    (answers.foldl (statsStep questions) acc).1 +
      (answers.foldl (statsStep questions) acc).2.1 +
      (answers.foldl (statsStep questions) acc).2.2.1 =
    acc.1 + acc.2.1 + acc.2.2.1 +
      answers.countP (fun ad => (idLookup questions ad.question_id).isSome) := by
  induction answers generalizing acc with
  | nil => simp
  | cons ad rest ih =>
    rw [List.foldl_cons, List.countP_cons, ih]
    have hstep := statsStep_sum questions acc ad
    by_cases h : (idLookup questions ad.question_id).isSome <;>
      simp [h] at hstep ⊢ <;> omega

/-- Claim C1 (amended): the total field of the JSON report equals the
number of recorded answers, while correct + incorrect + unanswered
equals the number of recorded answers whose question_id resolves in the
session's question list; the two agree exactly on the sessions where
every answer resolves. -/
theorem json_report_totals (s : SessionData) :
    (generate_json_report s).total = s.answers.length ∧
    (generate_json_report s).correct + (generate_json_report s).incorrect +
        (generate_json_report s).unanswered =
      s.answers.countP (fun ad => (idLookup s.questions ad.question_id).isSome) := by
  refine ⟨rfl, ?_⟩
  have h := statsLoop_sum s.questions s.answers (0, 0, 0, [])
  simpa [generate_json_report, jsonStatsLoop] using h

/-- Claim C1 counterexample: on a session holding one answer whose
question_id resolves to no question, the total field is 1 while the
three outcome counters sum to 0. -/
theorem json_report_totals_counterexample :
    ¬ ((generate_json_report cexUnresolvedSession).total =
        (generate_json_report cexUnresolvedSession).correct +
        (generate_json_report cexUnresolvedSession).incorrect +
        (generate_json_report cexUnresolvedSession).unanswered) := by
  decide

/-! ### Scoring -/

/-- Claim C5: against a correct-answer set that equals the set with
elements 1 and 3, the list answer with elements 1 and 3 scores correct,
the list answer holding only 1 scores incorrect and a null answer
scores unanswered; in general a list answer scores correct exactly when
it equals the correct-answer list as a set. -/
theorem multi_select_scoring (ca : List Int)
    (h : ca.toFinset = ({1, 3} : Finset Int)) :
    scoreAnswer (.multi [1, 3]) ca = .correct ∧
    scoreAnswer (.multi [1]) ca = .incorrect ∧
    scoreAnswer .null ca = .unanswered ∧
    ∀ vs : List Int,
      (scoreAnswer (.multi vs) ca = .correct ↔ vs.toFinset = ca.toFinset) := by
  refine ⟨?_, ?_, rfl, fun vs => ?_⟩
  · have he : ([1, 3] : List Int).toFinset = ca.toFinset := by rw [h]; decide
    simp [scoreAnswer, he]
  · have hne : ¬ (({1} : Finset Int) = ca.toFinset) := by rw [h]; decide
    simp [scoreAnswer, hne]
  · by_cases hv : vs.toFinset = ca.toFinset <;> simp [scoreAnswer, hv]

/-- Witness for the multi-select scoring claim at the concrete
correct-answer list holding 1 and 3. -/
theorem multi_select_scoring_witness :
    scoreAnswer (.multi [1, 3]) [1, 3] = .correct ∧
    scoreAnswer (.multi [1]) [1, 3] = .incorrect ∧
    scoreAnswer .null [1, 3] = .unanswered ∧
    (scoreAnswer (.multi [3, 1]) [1, 3] = .correct ↔
      ([3, 1] : List Int).toFinset = ([1, 3] : List Int).toFinset) :=
  have h := multi_select_scoring [1, 3] (by decide)
  ⟨h.1, h.2.1, h.2.2.1, h.2.2.2 [3, 1]⟩

/-- Claim C9: a scalar answer is scored correct exactly when it is a
member of the correct-answer list; in particular a scalar 1 against the
correct-answer set with elements 1 and 3 scores correct even though it
names only part of the correct set. -/
theorem scalar_scoring (ca : List Int) (v : Int) :
    (scoreAnswer (.scalar v) ca = .correct ↔ v ∈ ca) ∧
    (ca.toFinset = ({1, 3} : Finset Int) → scoreAnswer (.scalar 1) ca = .correct) := by
  constructor
  · by_cases hv : v ∈ ca <;> simp [scoreAnswer, hv]
  · intro h
    have h1 : (1 : Int) ∈ ca := by
      have hm : (1 : Int) ∈ ca.toFinset := by rw [h]; decide
      simpa using hm
    simp [scoreAnswer, h1]

/-- Witness for the scalar scoring claim at the concrete correct-answer
list holding 1 and 3 and the scalar answer 1. -/
theorem scalar_scoring_witness :
    (scoreAnswer (.scalar 1) [1, 3] = .correct ↔ (1 : Int) ∈ ([1, 3] : List Int)) ∧
    scoreAnswer (.scalar 1) [1, 3] = .correct :=
  have h := scalar_scoring [1, 3] 1
  ⟨h.1, h.2 (by decide)⟩

/-! ### Report determinism -/

/-- Claim C6 (amended): report generation is deterministic given the
session data and the formatted generation time: generate_json_report
depends only on the session data, and generate_markdown_report depends
on the clock only through the timestamp line at index 2, so the
Markdown reports of one session generated at two different times agree
on every other line.  Both functions are pure and leave the session
data untouched. -/
theorem report_determinism (s : SessionData) (t₁ t₂ : String) :
    generate_json_report s = generate_json_report s ∧
    (markdownReportLines t₁ s).eraseIdx 2 = (markdownReportLines t₂ s).eraseIdx 2 :=
  ⟨rfl, rfl⟩

/-- Claim C6 counterexample: the Markdown report embeds the generation
time, so two calls for the same session data at different times return
different strings. -/
theorem markdown_time_counterexample :
    generate_markdown_report "2025-01-01 10:00" cexEmptySession ≠
      generate_markdown_report "2025-01-01 10:01" cexEmptySession := by
  decide

/-! ### Markdown versus JSON statistics -/

/-- Claim C8: the Markdown and JSON reports agree on every statistic
they present: the total, correct, incorrect and unanswered counts, the
correct rate, and the per-category statistics table. -/
theorem markdown_json_agree (s : SessionData) :
    markdownTotal s = (generate_json_report s).total ∧
    (markdownStats s).1 = (generate_json_report s).correct ∧
    (markdownStats s).2.1 = (generate_json_report s).incorrect ∧
    (markdownStats s).2.2.1 = (generate_json_report s).unanswered ∧
    markdownCorrectRate s = (generate_json_report s).correct_rate ∧
    (markdownStats s).2.2.2 = (generate_json_report s).category_stats :=
  ⟨rfl, rfl, rfl, rfl, rfl, rfl⟩

/-! ### Answer upsert -/

/-- Unfolding of the upsert over a cons cell: the head is replaced when
its question_id matches, otherwise the upsert continues in the tail. -/
theorem upsertAnswer_cons (a : AnswerRecord) (rest : List AnswerRecord)
    (newRec : AnswerRecord) :
    upsertAnswer (a :: rest) newRec =
      if a.question_id == newRec.question_id then newRec :: rest
      else a :: upsertAnswer rest newRec := by
  by_cases h : (a.question_id == newRec.question_id)
  · simp [upsertAnswer, List.findIdx?_cons, h]
  · cases hf : rest.findIdx? (fun x => x.question_id == newRec.question_id) with
    | none => simp [upsertAnswer, List.findIdx?_cons, h, hf]
    | some i => simp [upsertAnswer, List.findIdx?_cons, h, hf]

/-- Every record of the upsert result is an old record or the new one. -/
theorem mem_upsertAnswer {answers : List AnswerRecord} {newRec a : AnswerRecord}
    (h : a ∈ upsertAnswer answers newRec) : a ∈ answers ∨ a = newRec := by
  unfold upsertAnswer at h
  cases hf : answers.findIdx? (fun x => x.question_id == newRec.question_id) with
  | none =>
    rw [hf] at h
    simpa using h
  | some i =>
    rw [hf] at h
    exact List.mem_or_eq_of_mem_set h

/-- The upsert preserves distinctness of the question ids. -/
theorem upsertAnswer_nodup (answers : List AnswerRecord) (newRec : AnswerRecord)
    (h : (answers.map (fun a => a.question_id)).Nodup) :
    ((upsertAnswer answers newRec).map (fun a => a.question_id)).Nodup := by
  induction answers with
  | nil => simp [upsertAnswer]
  | cons a rest ih =>
    rw [upsertAnswer_cons]
    by_cases ha : (a.question_id == newRec.question_id)
    · rw [if_pos ha]
      have hqe : a.question_id = newRec.question_id := by simpa using ha
      simp only [List.map_cons, List.nodup_cons] at h ⊢
      exact ⟨hqe ▸ h.1, h.2⟩
    · rw [if_neg ha]
      simp only [List.map_cons, List.nodup_cons] at h ⊢
      refine ⟨?_, ih h.2⟩
      intro hmem
      rw [List.mem_map] at hmem
      obtain ⟨b, hb, hbq⟩ := hmem
      rcases mem_upsertAnswer hb with hb' | hbe
      · exact h.1 (List.mem_map.mpr ⟨b, hb', hbq⟩)
      · have hane : a.question_id ≠ newRec.question_id := by simpa using ha
        exact hane (hbe ▸ hbq).symm

/-- When a matching record exists, the upsert replaces the first one
(at the first index carrying the submitted question_id) in place. -/
theorem upsertAnswer_replace (answers : List AnswerRecord) (newRec : AnswerRecord)
    (h : ∃ a ∈ answers, a.question_id = newRec.question_id) :
    ∃ i, ∃ hi : i < answers.length,
      (answers.get ⟨i, hi⟩).question_id = newRec.question_id ∧
      (∀ j (hj : j < answers.length), j < i →
        (answers.get ⟨j, hj⟩).question_id ≠ newRec.question_id) ∧
      upsertAnswer answers newRec = answers.set i newRec := by
  induction answers with
  | nil => simp at h
  | cons a rest ih =>
    rw [upsertAnswer_cons]
    by_cases ha : (a.question_id == newRec.question_id)
    · refine ⟨0, by simp, by simpa using ha, fun j hj hj0 => absurd hj0 (Nat.not_lt_zero j), ?_⟩
      rw [if_pos ha]
      simp
    · have h' : ∃ b ∈ rest, b.question_id = newRec.question_id := by
        rcases h with ⟨b, hb, he⟩
        rcases List.mem_cons.mp hb with rfl | hbr
        · exact absurd he (by simpa using ha)
        · exact ⟨b, hbr, he⟩
      obtain ⟨i, hi, hm, hfirst, hup⟩ := ih h'
      refine ⟨i + 1, by simpa using Nat.succ_lt_succ hi, by simpa using hm, ?_, ?_⟩
      · intro j hj hji
        cases j with
        | zero => simpa using ha
        | succ j' =>
          have hj'i : j' < i := Nat.lt_of_succ_lt_succ hji
          have hj' : j' < rest.length := by simpa using Nat.lt_of_succ_lt_succ hj
          simpa using hfirst j' hj' hj'i
      · rw [if_neg ha, hup]
        simp

/-- When no matching record exists, the upsert appends. -/
theorem upsertAnswer_append (answers : List AnswerRecord) (newRec : AnswerRecord)
    (h : ∀ a ∈ answers, a.question_id ≠ newRec.question_id) :
    upsertAnswer answers newRec = answers ++ [newRec] := by
  unfold upsertAnswer
  have hf : answers.findIdx? (fun x => x.question_id == newRec.question_id) = none := by
    rw [List.findIdx?_eq_none_iff]
    intro x hx
    simpa using h x hx
  rw [hf]

/-- A freshly created session has no answers. -/
theorem create_session_answers (store : List Question) (sid mode : String)
    (ens : List Int) (cats : List String) (maxq : Option Int)
    (pick : Nat → Nat) (created : String) :
    (create_session store sid mode ens cats maxq pick created).answers = [] := rfl

/-- Every reachable session state has pairwise distinct question ids in
its answers list. -/
theorem reachable_answers_nodup (store : List Question) (s : SessionData)
    (h : ReachableSession store s) :
    (s.answers.map (fun a => a.question_id)).Nodup := by
  obtain ⟨sid, mode, ens, cats, maxq, pick, created, hr⟩ := h
  induction hr with
  | refl =>
    rw [create_session_answers]
    simp
  | tail hab hbc ih =>
    obtain ⟨qid, ans, t, ts, rfl⟩ := hbc
    exact upsertAnswer_nodup _ _ ih

/-- Claim C7: submitting an answer whose question_id is already present
replaces the first matching record in place and keeps the list length;
otherwise the new record is appended; consequently every session state
reachable from session creation carries at most one answer record per
question_id. -/
theorem submit_answer_upsert (s : SessionData) (qid : String) (ans : UserAnswer)
    (t : ℚ) (ts : String) :
    ((∃ a ∈ s.answers, a.question_id = qid) →
      (submitAnswer s qid ans t ts).answers.length = s.answers.length ∧
      ∃ i, ∃ hi : i < s.answers.length,
        (s.answers.get ⟨i, hi⟩).question_id = qid ∧
        (∀ j (hj : j < s.answers.length), j < i →
          (s.answers.get ⟨j, hj⟩).question_id ≠ qid) ∧
        (submitAnswer s qid ans t ts).answers =
          s.answers.set i (AnswerRecord.mk qid ans t ts)) ∧
    ((∀ a ∈ s.answers, a.question_id ≠ qid) →
      (submitAnswer s qid ans t ts).answers =
        s.answers ++ [AnswerRecord.mk qid ans t ts]) ∧
    (∀ (store : List Question) (s' : SessionData), ReachableSession store s' →
      (s'.answers.map (fun a => a.question_id)).Nodup) := by
  refine ⟨?_, ?_, fun store s' h => reachable_answers_nodup store s' h⟩
  · intro h
    obtain ⟨i, hi, hm, hfirst, hup⟩ :=
      upsertAnswer_replace s.answers (AnswerRecord.mk qid ans t ts) (by simpa using h)
    constructor
    · show (upsertAnswer s.answers (AnswerRecord.mk qid ans t ts)).length = _
      rw [hup]
      simp
    · exact ⟨i, hi, hm, hfirst, hup⟩
  · intro h
    exact upsertAnswer_append s.answers (AnswerRecord.mk qid ans t ts) (by simpa using h)

/-- A session of one resolved question with one recorded answer. -/
def cexAnsweredSession : SessionData :=
  ⟨"sid", "test", [], [], none, [tq1], [⟨"1-1", .scalar 2, 0, "t0"⟩], "", 0⟩

/-- Witness for the upsert claim: re-submitting for question 1-1 keeps
the length; submitting for the fresh id 2-2 appends. -/
theorem submit_answer_upsert_witness :
    (submitAnswer cexAnsweredSession "1-1" (.scalar 1) 0 "t1").answers.length =
      cexAnsweredSession.answers.length ∧
    (submitAnswer cexAnsweredSession "2-2" (.scalar 1) 0 "t1").answers =
      cexAnsweredSession.answers ++ [AnswerRecord.mk "2-2" (.scalar 1) 0 "t1"] := by
  constructor
  · exact ((submit_answer_upsert cexAnsweredSession "1-1" (.scalar 1) 0 "t1").1
      (by decide)).1
  · exact (submit_answer_upsert cexAnsweredSession "2-2" (.scalar 1) 0 "t1").2.1
      (by decide)

/-! ### Reachable-state invariant of the session step relation -/

/-- A reachable session state holding an answer that references no
stored question. -/
def cexBadSession : SessionData :=
  submitAnswer (create_session [tq1] "sid" "test" [] [] none (fun _ => 0) "t")
    "BOGUS" .null 0 "ts"

/-- Claim C2 counterexample: submit_answer accepts any question_id
without validation, so a state whose answer record references no
question of the store is reachable from session creation by one
submission. -/
theorem answer_invariant_counterexample :
    ReachableSession [tq1] cexBadSession ∧
    ∃ a ∈ cexBadSession.answers, ∀ q ∈ [tq1], q.id ≠ a.question_id := by
  constructor
  · exact ⟨"sid", "test", [], [], none, fun _ => 0, "t",
      Relation.ReflTransGen.single ⟨"BOGUS", .null, 0, "ts", rfl⟩⟩
  · decide

/-- Claim C2 (amended): submit_answer validates nothing, so the
invariant holds exactly for the runs whose submissions all name stored
questions: every state reachable from creation through submissions
whose question_id belongs to the store has all its answer records
resolvable in the store. -/
theorem answer_invariant_of_valid_steps (store : List Question) (s : SessionData)
    (h : ReachableSessionValid store s) :
    ∀ a ∈ s.answers, a.question_id ∈ store.map (fun q => q.id) := by
  obtain ⟨sid, mode, ens, cats, maxq, pick, created, hr⟩ := h
  induction hr with
  | refl =>
    intro a ha
    rw [create_session_answers] at ha
    simp at ha
  | tail hab hbc ih =>
    obtain ⟨qid, ans, t, ts, hqid, rfl⟩ := hbc
    intro a ha
    rcases mem_upsertAnswer ha with h' | rfl
    · exact ih _ h'
    · simpa using hqid

/-- A reachable session state built from one valid submission. -/
def cexGoodSession : SessionData :=
  submitAnswer (create_session [tq1] "sid" "test" [] [] none (fun _ => 0) "t")
    "1-1" (.scalar 1) 0 "ts"

/-- Witness for the amended invariant at a concrete valid run. -/
theorem answer_invariant_of_valid_steps_witness :
    (AnswerRecord.mk "1-1" (.scalar 1) 0 "ts").question_id ∈
      ([tq1].map (fun q => q.id)) :=
  answer_invariant_of_valid_steps [tq1] cexGoodSession
    ⟨"sid", "test", [], [], none, fun _ => 0, "t",
      Relation.ReflTransGen.single ⟨"1-1", .scalar 1, 0, "ts", by decide, rfl⟩⟩
    (AnswerRecord.mk "1-1" (.scalar 1) 0 "ts") (by decide)

/-! ### Sampling without replacement -/

/-- One step of the sampling loop on a non-empty population. -/
theorem sampleGo_succ {α : Type} (pick : Nat → Nat) (step k : Nat) (l : List α)
    (h : ¬ l.length = 0) :
    sampleGo pick step (k + 1) l =
      l.get ⟨pick step % l.length, Nat.mod_lt _ (Nat.pos_of_ne_zero h)⟩ ::
        sampleGo pick (step + 1) k (l.eraseIdx (pick step % l.length)) := by
  rw [sampleGo, dif_neg h]

/-- The sample has length the minimum of the request and the
population size. -/
theorem sampleGo_length {α : Type} (pick : Nat → Nat) :
    ∀ (k step : Nat) (l : List α),
      (sampleGo pick step k l).length = min k l.length := by
  intro k
  induction k with
  | zero => intro step l; simp [sampleGo]
  | succ k ih =>
    intro step l
    by_cases h : l.length = 0
    · rw [sampleGo, dif_pos h]
      simp [h]
    · rw [sampleGo_succ pick step k l h]
      have hmod : pick step % l.length < l.length := Nat.mod_lt _ (Nat.pos_of_ne_zero h)
      have hlen := List.length_eraseIdx_of_lt hmod
      simp only [List.length_cons, ih, hlen]
      omega

/-- Moving the element at index i to the front of the remainder is a
permutation of the original list. -/
theorem get_cons_eraseIdx_perm {α : Type} :
    ∀ (l : List α) (i : Nat) (h : i < l.length),
      List.Perm (l.get ⟨i, h⟩ :: l.eraseIdx i) l := by
  intro l
  induction l with
  | nil => intro i h; simp at h
  | cons a t ih =>
    intro i h
    cases i with
    | zero => simp [List.eraseIdx]
    | succ n =>
      have hn : n < t.length := by simpa using Nat.lt_of_succ_lt_succ h
      show List.Perm (t.get ⟨n, hn⟩ :: a :: t.eraseIdx n) (a :: t)
      have hswap : List.Perm (t.get ⟨n, hn⟩ :: a :: t.eraseIdx n)
          (a :: t.get ⟨n, hn⟩ :: t.eraseIdx n) := List.Perm.swap a (t.get ⟨n, hn⟩) _
      exact hswap.trans ((ih n hn).cons a)

/-- The sample is a subpermutation of the population: it uses each
occurrence of an element at most once. -/
theorem sampleGo_subperm {α : Type} (pick : Nat → Nat) :
    ∀ (k step : Nat) (l : List α), List.Subperm (sampleGo pick step k l) l := by
  intro k
  induction k with
  | zero => intro step l; exact List.nil_subperm
  | succ k ih =>
    intro step l
    by_cases h : l.length = 0
    · rw [sampleGo, dif_pos h]
      exact List.nil_subperm
    · rw [sampleGo_succ pick step k l h]
      have hmod : pick step % l.length < l.length := Nat.mod_lt _ (Nat.pos_of_ne_zero h)
      have hsub := (List.subperm_cons (l.get ⟨pick step % l.length, hmod⟩)).mpr
        (ih (step + 1) (l.eraseIdx (pick step % l.length)))
      exact hsub.trans (get_cons_eraseIdx_perm l _ hmod).subperm

/-- A subpermutation of a duplicate-free list is duplicate-free. -/
theorem nodup_of_subperm {α : Type} {l₁ l₂ : List α} (h : List.Subperm l₁ l₂)
    (h₂ : l₂.Nodup) : l₁.Nodup := by
  obtain ⟨l, hp, hs⟩ := h
  exact hp.nodup_iff.mp (h₂.sublist hs)

/-- Claim C3 (amended): for a positive requested count the sampler
returns at most that many questions and always a subpermutation of the
filtered list (hence no duplicates whenever the filtered list has
none, in particular whenever the filter argument lists carry no
repeated values over a store with distinct questions), and it returns
the filtered list itself whenever that list already fits the count; a
missing count returns the filtered list unchanged.  The original
claim fails for a nonpositive requested count, which the code treats
as no limit, and for a filtered list that itself carries duplicates. -/
theorem filter_and_sample_spec (qs : List Question) (ens : List Int)
    (cats : List String) (m : Int) (pick : Nat → Nat) (hm : 0 < m) :
    (filter_and_sample_questions qs ens cats (some m) pick).length ≤ m.toNat ∧
    List.Subperm (filter_and_sample_questions qs ens cats (some m) pick)
      (filter_questions qs ens cats) ∧
    ((filter_questions qs ens cats).Nodup →
      (filter_and_sample_questions qs ens cats (some m) pick).Nodup) ∧
    (((filter_questions qs ens cats).length : Int) ≤ m →
      filter_and_sample_questions qs ens cats (some m) pick =
        filter_questions qs ens cats) ∧
    (∀ m' : Int, m' ≤ 0 →
      filter_and_sample_questions qs ens cats (some m') pick =
        filter_questions qs ens cats) ∧
    filter_and_sample_questions qs ens cats none pick =
      filter_questions qs ens cats := by
  have hnonpos : ∀ m' : Int, m' ≤ 0 →
      filter_and_sample_questions qs ens cats (some m') pick =
        filter_questions qs ens cats := by
    intro m' hle
    show (if m' ≤ 0 then filter_questions qs ens cats
        else if ((filter_questions qs ens cats).length : Int) ≤ m' then
          filter_questions qs ens cats
        else randomSample pick (filter_questions qs ens cats) m'.toNat) =
      filter_questions qs ens cats
    rw [if_pos hle]
  have hnotle : ¬ m ≤ 0 := not_le.mpr hm
  by_cases hfit : ((filter_questions qs ens cats).length : Int) ≤ m
  · have heq : filter_and_sample_questions qs ens cats (some m) pick =
        filter_questions qs ens cats := by
      show (if m ≤ 0 then filter_questions qs ens cats
          else if ((filter_questions qs ens cats).length : Int) ≤ m then
            filter_questions qs ens cats
          else randomSample pick (filter_questions qs ens cats) m.toNat) =
        filter_questions qs ens cats
      rw [if_neg hnotle, if_pos hfit]
    refine ⟨?_, ?_, ?_, fun _ => heq, hnonpos, rfl⟩
    · rw [heq]
      omega
    · rw [heq]
    · intro hnd
      rw [heq]
      exact hnd
  · have heq : filter_and_sample_questions qs ens cats (some m) pick =
        randomSample pick (filter_questions qs ens cats) m.toNat := by
      show (if m ≤ 0 then filter_questions qs ens cats
          else if ((filter_questions qs ens cats).length : Int) ≤ m then
            filter_questions qs ens cats
          else randomSample pick (filter_questions qs ens cats) m.toNat) =
        randomSample pick (filter_questions qs ens cats) m.toNat
      rw [if_neg hnotle, if_neg hfit]
    refine ⟨?_, ?_, ?_, fun hle => absurd hle hfit, hnonpos, rfl⟩
    · rw [heq]
      unfold randomSample
      rw [sampleGo_length]
      exact Nat.min_le_left _ _
    · rw [heq]
      exact sampleGo_subperm pick _ 0 _
    · intro hnd
      rw [heq]
      exact nodup_of_subperm (sampleGo_subperm pick _ 0 _) hnd

/-- Witness for the amended sampling claim at a concrete store:
requested count 2 over 3 questions, plus the nonpositive count 0 and
the missing count, both returning the full filtered list. -/
theorem filter_and_sample_spec_witness :
    (filter_and_sample_questions [tq1, tq2, tq3] [] [] (some 2) (fun _ => 0)).length ≤
      (2 : Int).toNat ∧
    List.Subperm (filter_and_sample_questions [tq1, tq2, tq3] [] [] (some 2) (fun _ => 0))
      (filter_questions [tq1, tq2, tq3] [] []) ∧
    (filter_and_sample_questions [tq1, tq2, tq3] [] [] (some 2) (fun _ => 0)).Nodup ∧
    filter_and_sample_questions [tq1, tq2, tq3] [] [] (some 0) (fun _ => 0) =
      filter_questions [tq1, tq2, tq3] [] [] ∧
    filter_and_sample_questions [tq1, tq2, tq3] [] [] none (fun _ => 0) =
      filter_questions [tq1, tq2, tq3] [] [] :=
  have h := filter_and_sample_spec [tq1, tq2, tq3] [] [] 2 (fun _ => 0) (by norm_num)
  ⟨h.1, h.2.1, h.2.2.1 (by decide), h.2.2.2.2.1 0 (by decide), h.2.2.2.2.2⟩

/-- Claim C3 counterexample: a requested count of 0 is treated as no
limit, so the result exceeds the count; and a repeated exam number in
the filter makes the sampler return the same question twice. -/
theorem filter_and_sample_counterexample :
    ¬ ((filter_and_sample_questions [tq1] [] [] (some 0) (fun _ => 0)).length ≤
        (0 : Int).toNat) ∧
    ¬ (filter_and_sample_questions [tq1] [1, 1] [] (some 5) (fun _ => 0)).Nodup := by
  decide

/-! ### Id-index lemmas -/

/-- The id fold leaves the accumulator alone when no question carries
the key. -/
theorem idLookup_fold_const (qs : List Question) (i : String) :
    ∀ acc, (∀ q ∈ qs, q.id ≠ i) →
      qs.foldl (fun acc q => if q.id == i then some q else acc) acc = acc := by
  induction qs with
  | nil => intro acc _; rfl
  | cons a rest ih =>
    intro acc h
    rw [List.foldl_cons]
    have ha : ¬ (a.id == i) := by simpa using h a (List.mem_cons_self a rest)
    rw [if_neg ha]
    exact ih acc (fun q hq => h q (List.mem_cons_of_mem a hq))

/-- A successful id lookup returns a stored question carrying the key. -/
theorem idLookup_some (qs : List Question) (i : String) (q : Question) :
    idLookup qs i = some q → q ∈ qs ∧ q.id = i := by
  suffices h : ∀ acc,
      qs.foldl (fun acc q => if q.id == i then some q else acc) acc = some q →
        (q ∈ qs ∧ q.id = i) ∨ acc = some q by
    intro hq
    rcases h none hq with h' | h'
    · exact h'
    · simp at h'
  induction qs with
  | nil =>
    intro acc h
    right
    exact h
  | cons a rest ih =>
    intro acc h
    rw [List.foldl_cons] at h
    rcases ih _ h with h' | h'
    · exact Or.inl ⟨List.mem_cons_of_mem a h'.1, h'.2⟩
    · by_cases ha : (a.id == i)
      · rw [if_pos ha] at h'
        obtain rfl : a = q := by simpa using h'
        exact Or.inl ⟨List.mem_cons_self a rest, by simpa using ha⟩
      · rw [if_neg ha] at h'
        exact Or.inr h'

/-- Over a store with distinct ids, the id lookup finds exactly the
stored question with the key. -/
theorem idLookup_unique (qs : List Question) (i : String) (q : Question) :
    (qs.map (fun p => p.id)).Nodup → q ∈ qs → q.id = i →
      idLookup qs i = some q := by
  induction qs with
  | nil =>
    intro _ hq _
    simp at hq
  | cons a rest ih =>
    intro hn hq hi
    simp only [List.map_cons, List.nodup_cons] at hn
    show List.foldl (fun acc p => if p.id == i then some p else acc)
      (if a.id == i then some a else none) rest = some q
    rcases List.mem_cons.mp hq with rfl | hqr
    · rw [if_pos (by simpa using hi)]
      exact idLookup_fold_const rest i (some q)
        (fun r hr hri => hn.1 (List.mem_map.mpr ⟨r, hr, hri.trans hi.symm⟩))
    · have hai : ¬ (a.id == i) := by
        simp only [beq_iff_eq]
        intro hae
        exact hn.1 (List.mem_map.mpr ⟨q, hqr, hi.trans hae.symm⟩)
      rw [if_neg hai]
      exact ih hn.2 hqr hi

/-- Two stored questions sharing an id are equal when the store has
distinct ids. -/
theorem eq_of_id_mem (qs : List Question)
    (hn : (qs.map (fun p => p.id)).Nodup) {q q' : Question}
    (hq : q ∈ qs) (hq' : q' ∈ qs) (he : q.id = q'.id) : q = q' := by
  have h1 := idLookup_unique qs q'.id q hn hq he
  have h2 := idLookup_unique qs q'.id q' hn hq' rfl
  rw [h1] at h2
  exact Option.some.inj h2

/-- Membership in the exam-side id set. -/
theorem mem_examIdSet (qs : List Question) (ens : List Int) (i : String) :
    i ∈ examIdSet qs ens ↔ ∃ p ∈ qs, p.exam_number ∈ ens ∧ p.id = i := by
  unfold examIdSet examIndex
  rw [List.mem_dedup]
  simp only [List.mem_flatMap, List.mem_map, List.mem_filter, beq_iff_eq]
  constructor
  · rintro ⟨e, he, p, ⟨hp, hpe⟩, hpi⟩
    exact ⟨p, hp, hpe ▸ he, hpi⟩
  · rintro ⟨p, hp, hpe, hpi⟩
    exact ⟨p.exam_number, hpe, p, ⟨hp, rfl⟩, hpi⟩

/-- Membership in the category-side id set. -/
theorem mem_catIdSet (qs : List Question) (cats : List String) (i : String) :
    i ∈ catIdSet qs cats ↔ ∃ p ∈ qs, p.category ∈ cats ∧ p.id = i := by
  unfold catIdSet catIndex
  rw [List.mem_dedup]
  simp only [List.mem_flatMap, List.mem_map, List.mem_filter, beq_iff_eq]
  constructor
  · rintro ⟨c, hc, p, ⟨hp, hpc⟩, hpi⟩
    exact ⟨p, hp, hpc ▸ hc, hpi⟩
  · rintro ⟨p, hp, hpc, hpi⟩
    exact ⟨p.category, hpc, p, ⟨hp, rfl⟩, hpi⟩

/-! ### Unfoldings of the three filter paths -/

/-- Both filters present: intersection of the id sets, looked up in the
id index. -/
theorem filter_questions_both (qs : List Question) (ens : List Int)
    (cats : List String) (h1 : ens ≠ []) (h2 : cats ≠ []) :
    filter_questions qs ens cats =
      ((examIdSet qs ens).filter (fun i => (catIdSet qs cats).elem i)).filterMap
        (fun i => idLookup qs i) := by
  unfold filter_questions
  rw [if_pos (⟨h1, h2⟩ : ens ≠ [] ∧ cats ≠ [])]

/-- Exam filter only: concatenation of the exam index buckets. -/
theorem filter_questions_exam (qs : List Question) (ens : List Int)
    (h1 : ens ≠ []) :
    filter_questions qs ens [] = ens.flatMap (fun e => examIndex qs e) := by
  unfold filter_questions
  rw [if_neg (fun h => h.2 rfl), if_pos h1]

/-- Category filter only: concatenation of the category index buckets. -/
theorem filter_questions_cat (qs : List Question) (cats : List String)
    (h2 : cats ≠ []) :
    filter_questions qs [] cats = cats.flatMap (fun c => catIndex qs c) := by
  unfold filter_questions
  rw [if_neg (fun h => h.1 rfl), if_neg (fun h => h rfl), if_pos h2]

/-- No filter: the whole store. -/
theorem filter_questions_none (qs : List Question) :
    filter_questions qs [] [] = qs := by
  unfold filter_questions
  rw [if_neg (fun h => h.1 rfl), if_neg (fun h => h rfl), if_neg (fun h => h rfl)]

/-- Claim C4: over a store with distinct question ids, filtering with
both dimensions non-empty returns exactly the questions whose exam
number is listed and whose category is listed, and filtering with both
dimensions empty returns the full store. -/
theorem filter_questions_spec (qs : List Question)
    (hn : (qs.map (fun p => p.id)).Nodup) :
    (∀ (ens : List Int) (cats : List String), ens ≠ [] → cats ≠ [] →
      ∀ q : Question,
        q ∈ filter_questions qs ens cats ↔
          q ∈ qs ∧ q.exam_number ∈ ens ∧ q.category ∈ cats) ∧
    filter_questions qs [] [] = qs := by
  refine ⟨?_, filter_questions_none qs⟩
  intro ens cats hne hnc q
  rw [filter_questions_both qs ens cats hne hnc, List.mem_filterMap]
  constructor
  · rintro ⟨i, hi, hlook⟩
    obtain ⟨hq_mem, hqid⟩ := idLookup_some qs i q hlook
    have hif := List.mem_filter.mp hi
    obtain ⟨p, hp, hpe, hpi⟩ := (mem_examIdSet qs ens i).mp hif.1
    have hic : i ∈ catIdSet qs cats := by
      have hel := hif.2
      simpa [List.elem_iff] using hel
    obtain ⟨p', hp', hpc, hpi'⟩ := (mem_catIdSet qs cats i).mp hic
    have hpq : p = q := eq_of_id_mem qs hn hp hq_mem (by rw [hpi, hqid])
    have hp'q : p' = q := eq_of_id_mem qs hn hp' hq_mem (by rw [hpi', hqid])
    exact ⟨hq_mem, hpq ▸ hpe, hp'q ▸ hpc⟩
  · rintro ⟨hq_mem, hqe, hqc⟩
    refine ⟨q.id, ?_, idLookup_unique qs q.id q hn hq_mem rfl⟩
    rw [List.mem_filter]
    refine ⟨(mem_examIdSet qs ens q.id).mpr ⟨q, hq_mem, hqe, rfl⟩, ?_⟩
    have hqc' : q.id ∈ catIdSet qs cats :=
      (mem_catIdSet qs cats q.id).mpr ⟨q, hq_mem, hqc, rfl⟩
    simpa [List.elem_iff] using hqc'

/-- Witness for the filtering claim at a concrete store and filters. -/
theorem filter_questions_spec_witness :
    (tq1 ∈ filter_questions [tq1, tq2, tq3] [1] ["catA"] ↔
      tq1 ∈ [tq1, tq2, tq3] ∧ tq1.exam_number ∈ [1] ∧ tq1.category ∈ ["catA"]) ∧
    filter_questions [tq1, tq2, tq3] [] [] = [tq1, tq2, tq3] :=
  have h := filter_questions_spec [tq1, tq2, tq3] (by decide)
  ⟨h.1 [1] ["catA"] (by decide) (by decide) tq1, h.2⟩

/-! ### Multiplicity through the single-dimension paths -/

/-- Occurrences of a question in one exam bucket. -/
theorem count_examIndex (qs : List Question) (e : Int) (q : Question) :
    (examIndex qs e).count q = if q.exam_number = e then qs.count q else 0 := by
  unfold examIndex
  by_cases hq : q.exam_number = e
  · rw [if_pos hq]
    exact List.count_filter (by simpa using hq)
  · rw [if_neg hq, List.count_eq_zero]
    intro hmem
    exact hq (by simpa using (List.mem_filter.mp hmem).2)

/-- Occurrences of a question in one category bucket. -/
theorem count_catIndex (qs : List Question) (c : String) (q : Question) :
    (catIndex qs c).count q = if q.category = c then qs.count q else 0 := by
  unfold catIndex
  by_cases hq : q.category = c
  · rw [if_pos hq]
    exact List.count_filter (by simpa using hq)
  · rw [if_neg hq, List.count_eq_zero]
    intro hmem
    exact hq (by simpa using (List.mem_filter.mp hmem).2)

/-- Occurrences of a question in the concatenated exam buckets: one
copy per occurrence of its exam number in the argument list, times its
multiplicity in the store. -/
theorem count_flatMap_examIndex (qs : List Question) (ens : List Int) (q : Question) :
    (ens.flatMap (fun e => examIndex qs e)).count q =
      ens.count q.exam_number * qs.count q := by
  induction ens with
  | nil => simp
  | cons e rest ih =>
    rw [List.flatMap_cons, List.count_append, ih, count_examIndex]
    by_cases hq : q.exam_number = e
    · subst hq
      rw [if_pos rfl, List.count_cons_self]
      ring
    · rw [if_neg hq, List.count_cons_of_ne hq]
      ring

/-- Occurrences of a question in the concatenated category buckets. -/
theorem count_flatMap_catIndex (qs : List Question) (cats : List String) (q : Question) :
    (cats.flatMap (fun c => catIndex qs c)).count q =
      cats.count q.category * qs.count q := by
  induction cats with
  | nil => simp
  | cons c rest ih =>
    rw [List.flatMap_cons, List.count_append, ih, count_catIndex]
    by_cases hq : q.category = c
    · subst hq
      rw [if_pos rfl, List.count_cons_self]
      ring
    · rw [if_neg hq, List.count_cons_of_ne hq]
      ring

/-- The intersection path never yields a duplicate question: the
common ids form a set and each id is looked up once. -/
theorem filter_questions_both_nodup (qs : List Question) (ens : List Int)
    (cats : List String) (h1 : ens ≠ []) (h2 : cats ≠ []) :
    (filter_questions qs ens cats).Nodup := by
  rw [filter_questions_both qs ens cats h1 h2]
  refine List.Nodup.filterMap ?_ ((List.nodup_dedup _).filter _)
  intro a a' b hb hb'
  have ha := (idLookup_some qs a b (Option.mem_def.mp hb)).2
  have ha' := (idLookup_some qs a' b (Option.mem_def.mp hb')).2
  rw [← ha, ← ha']

/-- Claim C10: with only one filter dimension supplied, every matching
question appears once per occurrence of its value in the argument list,
so repeated values yield duplicates, and this path is what the
questions endpoint runs for repeated query parameters; with both
dimensions supplied the result has no duplicates. -/
theorem filter_single_dimension_multiplicity (qs : List Question) (ens : List Int)
    (cats : List String) (q : Question) (e : Int) :
    (ens ≠ [] →
      (filter_questions qs ens []).count q = ens.count q.exam_number * qs.count q) ∧
    (cats ≠ [] →
      (filter_questions qs [] cats).count q = cats.count q.category * qs.count q) ∧
    (ens ≠ [] → cats ≠ [] → (filter_questions qs ens cats).Nodup) ∧
    (get_questions qs [e, e] []).1 = filter_questions qs [e, e] [] ∧
    (q.exam_number = e →
      (get_questions qs [e, e] []).1.count q = 2 * qs.count q) := by
  refine ⟨?_, ?_, ?_, rfl, ?_⟩
  · intro h1
    rw [filter_questions_exam qs ens h1, count_flatMap_examIndex]
  · intro h2
    rw [filter_questions_cat qs cats h2, count_flatMap_catIndex]
  · exact fun h1 h2 => filter_questions_both_nodup qs ens cats h1 h2
  · intro he
    show (filter_questions qs [e, e] []).count q = 2 * qs.count q
    rw [filter_questions_exam qs [e, e] (by simp), count_flatMap_examIndex, he]
    have h2 : ([e, e] : List Int).count e = 2 := by simp
    rw [h2]

/-- Witness for the multiplicity claim at a concrete store: exam filter
with one value, category filter with one value, and the endpoint with
the exam value repeated. -/
theorem filter_single_dimension_multiplicity_witness :
    (filter_questions [tq1, tq2, tq3] [1] []).count tq1 =
      [1].count tq1.exam_number * [tq1, tq2, tq3].count tq1 ∧
    (filter_questions [tq1, tq2, tq3] [] ["catA"]).count tq1 =
      ["catA"].count tq1.category * [tq1, tq2, tq3].count tq1 ∧
    (filter_questions [tq1, tq2, tq3] [1] ["catA"]).Nodup ∧
    (get_questions [tq1, tq2, tq3] [1, 1] []).1.count tq1 =
      2 * [tq1, tq2, tq3].count tq1 :=
  have h := filter_single_dimension_multiplicity [tq1, tq2, tq3] [1] ["catA"] tq1 1
  ⟨h.1 (by decide), h.2.1 (by decide), h.2.2.1 (by decide) (by decide),
    h.2.2.2.2 (by decide)⟩

end NatExamTool
